import Mathlib

/-!
Shallow embedding of the kantonq transaction service core
(src/model.rs, src/repository.rs, src/main.rs).

The core stores `Transaction` records in one Postgres table and exposes
`get_transactions` and `add_transaction`.  The embedding has three layers:

* the data model: `Transaction` (model.rs) with row conversion
  (`Transaction.toRow` from the insert's parameter list,
  `from_row_ref` from the derived `tokio_pg_mapper` row mapper);
* the control flow of repository.rs over an arbitrary database response
  (`get_transactions_impl`, `add_transaction_impl`), keeping its error
  channels distinct: `prepare(..).unwrap()` and
  `Transaction::from_row_ref(row).unwrap()` abort on failure (modelled by
  `Outcome.panicked`), the `?` on `query` returns the database error, and
  `Vec::pop().ok_or(MyError::NotFound)` takes the last returned row;
* a state layer pairing that control flow with the external storage
  engine's behaviour (table as a list of rows, primary key on `id`),
  modelled from the spec since the engine is an external collaborator.
-/

namespace KantonQ

/-- The `Transaction` struct of model.rs: six required fields
(`id`, `datetime`, `trx_type`, `trx_subtype`, `name` strings, `amount` an
i64) and four optional fields (`wallet_from`, `wallet_to`, `description`
optional strings, `fee` an optional i64). -/
structure Transaction where
  id : String
  datetime : String
  trx_type : String
  trx_subtype : String
  wallet_from : Option String
  wallet_to : Option String
  name : String
  amount : Int
  fee : Option Int
  description : Option String
deriving DecidableEq

/-- A single SQL column value: text, 64-bit integer, or NULL. -/
inductive SqlValue where
  | text : String → SqlValue
  | int8 : Int → SqlValue
  | null : SqlValue
deriving DecidableEq

/-- A result / stored row: the list of its column values. -/
abbrev Row := List SqlValue

/-- Nullable text column value of an `Option<String>` field. -/
def optText : Option String → SqlValue
  | some s => .text s
  | none => .null

/-- Nullable int8 column value of an `Option<i64>` field. -/
def optInt8 : Option Int → SqlValue
  | some n => .int8 n
  | none => .null

/-- The parameter tuple `($1, ..., $10)` that add_transaction binds, in the
column order of the INSERT statement of repository.rs. -/
def Transaction.toRow (t : Transaction) : Row :=
  [.text t.id, .text t.datetime, .text t.trx_type, .text t.trx_subtype,
   optText t.wallet_from, optText t.wallet_to, .text t.name,
   .int8 t.amount, optInt8 t.fee, optText t.description]

/-- Read a required text column; any other value is a mapping failure. -/
def asText : SqlValue → Option String
  | .text s => some s
  | _ => none

/-- Read a required int8 column; any other value is a mapping failure. -/
def asInt8 : SqlValue → Option Int
  | .int8 n => some n
  | _ => none

/-- Read a nullable text column. -/
def asOptText : SqlValue → Option (Option String)
  | .text s => some (some s)
  | .null => some none
  | _ => none

/-- Read a nullable int8 column. -/
def asOptInt8 : SqlValue → Option (Option Int)
  | .int8 n => some (some n)
  | .null => some none
  | _ => none

/-- The derived `Transaction::from_row_ref` of the `PostgresMapper` derive on
model.rs: reads the ten columns in struct order; a missing column or a
type mismatch is a failure (`none`), which repository.rs unwraps. -/
def from_row_ref : Row → Option Transaction
  | [c0, c1, c2, c3, c4, c5, c6, c7, c8, c9] =>
    (asText c0).bind fun i =>
    (asText c1).bind fun dt =>
    (asText c2).bind fun ty =>
    (asText c3).bind fun sub =>
    (asOptText c4).bind fun wf =>
    (asOptText c5).bind fun wt =>
    (asText c6).bind fun nm =>
    (asInt8 c7).bind fun am =>
    (asOptInt8 c8).bind fun fe =>
    (asOptText c9).map fun ds =>
      ⟨i, dt, ty, sub, wf, wt, nm, am, fe, ds⟩
  | _ => none

/-- Modelled from the spec: the application error type `MyError` lives in
src/error.rs, which is not among the provided sources; the spec's error
taxonomy (section 7) has exactly two kinds: `StorageError`, wrapping any
connection-acquisition or SQL-execution failure (the `?` conversions in
repository.rs), and the not-found kind, constructed in repository.rs as
`MyError::NotFound` for the insert-returns-no-row anomaly. -/
inductive MyError where
  | StorageError : MyError
  | NotFound : MyError
deriving DecidableEq

/-- How a repository call ends: a value, an error value returned to the
caller, or an aborted task (a Rust `unwrap` panic). -/
inductive Outcome (α : Type) where
  | ok : α → Outcome α
  | err : MyError → Outcome α
  | panicked : Outcome α
deriving DecidableEq

/-- The row-mapping loop `rows.iter().map(|row| from_row_ref(row).unwrap())`
of repository.rs: `none` when any row fails to map (which panics there). -/
def mapRows : List Row → Option (List Transaction)
  | [] => some []
  | r :: rs =>
    match from_row_ref r, mapRows rs with
    | some t, some ts => some (t :: ts)
    | _, _ => none

/-- get_transactions of repository.rs over an arbitrary database response:
`prepare(..).unwrap()` panics when preparation fails; `query(..)?` returns
the database error (a `StorageError`); each row is mapped with
`from_row_ref(row).unwrap()`, panicking on a mapping failure. -/
def get_transactions_impl (prepareOk : Bool) (queryRes : Except Unit (List Row)) :
    Outcome (List Transaction) :=
  if prepareOk then
    match queryRes with
    | .error _ => .err .StorageError
    | .ok rows =>
      match mapRows rows with
      | some ts => .ok ts
      | none => .panicked
  else .panicked

/-- add_transaction of repository.rs over an arbitrary database response:
after the same prepare / query / row-mapping steps as get_transactions, the
collected Vec's `pop()` takes its last element, and `ok_or(MyError::NotFound)`
turns an empty result set into the not-found error. -/
def add_transaction_impl (prepareOk : Bool) (queryRes : Except Unit (List Row)) :
    Outcome Transaction :=
  if prepareOk then
    match queryRes with
    | .error _ => .err .StorageError
    | .ok rows =>
      match mapRows rows with
      | some ts =>
        match ts.getLast? with
        | some t => .ok t
        | none => .err .NotFound
      | none => .panicked
  else .panicked

/-- Does a row share its `id` column (the first column) with `r`? -/
def idConflict (table : List Row) (r : Row) : Bool :=
  table.any fun r0 => decide (r0.head? = r.head?)

/-- Modelled from the spec: the external storage engine's execution of the
parameterized `INSERT ... RETURNING` against the `transactions` table, whose
primary key is `id` (section 6): a duplicate `id` raises a constraint error
and leaves the table unchanged; otherwise the row is stored and the statement
returns exactly that row. -/
def runInsert (table : List Row) (r : Row) : List Row × Except Unit (List Row) :=
  if idConflict table r then (table, .error ())
  else (table ++ [r], .ok [r])

/-- Modelled from the spec: the external storage engine's execution of the
`SELECT` of all ten columns: every stored row is returned and the table is
unchanged. -/
def runSelectAll (table : List Row) : List Row × Except Unit (List Row) :=
  (table, .ok table)

/-- get_transactions against a healthy engine holding `table`: the pair of
the table afterwards and the call's outcome. -/
def get_transactions (table : List Row) : List Row × Outcome (List Transaction) :=
  let (table2, res) := runSelectAll table
  (table2, get_transactions_impl true res)

/-- add_transaction of `t` against a healthy engine holding `table`. -/
def add_transaction (table : List Row) (t : Transaction) :
    List Row × Outcome Transaction :=
  let (table2, res) := runInsert table t.toRow
  (table2, add_transaction_impl true res)

/-- A sequence of add_transaction calls, stopping at the first one that does
not return a value; the Bool records whether every call succeeded. -/
def runAdds : List Row → List Transaction → List Row × Bool
  | table, [] => (table, true)
  | table, t :: ts =>
    match add_transaction table t with
    | (table2, .ok _) => runAdds table2 ts
    | (table2, _) => (table2, false)

/-- A JSON value, as produced and consumed at the HTTP boundary. -/
inductive Json where
  | str : String → Json
  | num : Int → Json
  | bool : Bool → Json
  | null : Json
  | arr : List Json → Json
  | obj : List (String × Json) → Json

/-- JSON rendering of an `Option<String>` field under the derived
`Serialize`: `None` becomes an explicit `null`. -/
def jsonOfOptStr : Option String → Json
  | some s => .str s
  | none => .null

/-- JSON rendering of an `Option<i64>` field under the derived `Serialize`. -/
def jsonOfOptInt : Option Int → Json
  | some n => .num n
  | none => .null

/-- The derived `Serialize` of model.rs: an object with all ten fields, in
struct order, with absent optional fields as explicit nulls. -/
def Transaction.toJson (t : Transaction) : Json :=
  .obj [("id", .str t.id), ("datetime", .str t.datetime),
        ("trx_type", .str t.trx_type), ("trx_subtype", .str t.trx_subtype),
        ("wallet_from", jsonOfOptStr t.wallet_from),
        ("wallet_to", jsonOfOptStr t.wallet_to), ("name", .str t.name),
        ("amount", .num t.amount), ("fee", jsonOfOptInt t.fee),
        ("description", jsonOfOptStr t.description)]

/-- The ten field names of `Transaction`, in struct order. -/
def fieldNames : List String :=
  ["id", "datetime", "trx_type", "trx_subtype", "wallet_from", "wallet_to",
   "name", "amount", "fee", "description"]

/-- The keys of a JSON object, in order. -/
def jsonKeys : Json → List String
  | .obj fs => fs.map Prod.fst
  | _ => []

/-- Look a field up in a JSON object. -/
def lookupField : Json → String → Option Json
  | .obj fs, k => fs.lookup k
  | _, _ => none

/-- Read a required `String` field from its looked-up value. -/
def getStr : Option Json → Option String
  | some (.str s) => some s
  | _ => none

/-- Read a required `i64` field from its looked-up value. -/
def getInt : Option Json → Option Int
  | some (.num n) => some n
  | _ => none

/-- Read an `Option<String>` field: missing or `null` is `None`. -/
def getOptStr : Option Json → Option (Option String)
  | some (.str s) => some (some s)
  | some .null => some none
  | none => some none
  | _ => none

/-- Read an `Option<i64>` field: missing or `null` is `None`. -/
def getOptInt : Option Json → Option (Option Int)
  | some (.num n) => some (some n)
  | some .null => some none
  | none => some none
  | _ => none

/-- The derived `Deserialize` of model.rs, as used by the
`web::Json<Transaction>` extractor in main.rs: each required field must be
present with the right type, a missing or `null` optional field is `None`,
and — there being no `deny_unknown_fields` attribute — fields with other
names are ignored. -/
def Transaction.fromJson : Json → Option Transaction
  | .obj fs =>
    (getStr (fs.lookup "id")).bind fun i =>
    (getStr (fs.lookup "datetime")).bind fun dt =>
    (getStr (fs.lookup "trx_type")).bind fun ty =>
    (getStr (fs.lookup "trx_subtype")).bind fun sub =>
    (getOptStr (fs.lookup "wallet_from")).bind fun wf =>
    (getOptStr (fs.lookup "wallet_to")).bind fun wt =>
    (getStr (fs.lookup "name")).bind fun nm =>
    (getInt (fs.lookup "amount")).bind fun am =>
    (getOptInt (fs.lookup "fee")).bind fun fe =>
    (getOptStr (fs.lookup "description")).map fun ds =>
      ⟨i, dt, ty, sub, wf, wt, nm, am, fe, ds⟩
  | _ => none

theorem asOptText_optText (o : Option String) : asOptText (optText o) = some o := by
  cases o <;> rfl

theorem asOptInt8_optInt8 (o : Option Int) : asOptInt8 (optInt8 o) = some o := by
  cases o <;> rfl

theorem from_row_ref_toRow (t : Transaction) : from_row_ref t.toRow = some t := by
  obtain ⟨i, dt, ty, sub, wf, wt, nm, am, fe, ds⟩ := t
  cases wf <;> cases wt <;> cases fe <;> cases ds <;> rfl

theorem mapRows_map_toRow (ts : List Transaction) :
    mapRows (ts.map Transaction.toRow) = some ts := by
  induction ts with
  | nil => rfl
  | cons t ts ih => simp [mapRows, from_row_ref_toRow, ih]

theorem add_transaction_eq (table : List Row) (t : Transaction) :
    add_transaction table t =
      if idConflict table t.toRow then (table, .err .StorageError)
      else (table ++ [t.toRow], .ok t) := by
  by_cases h : idConflict table t.toRow
  · simp [add_transaction, runInsert, h, add_transaction_impl]
  · simp [add_transaction, runInsert, h, add_transaction_impl, mapRows,
      from_row_ref_toRow]

theorem mapRows_nil_of_nil (ts : List Transaction)
    (h : mapRows [] = some ts) : ts = [] := by
  simpa [mapRows] using h.symm

theorem mapRows_cons (r : Row) (rs : List Row) (ts : List Transaction)
    (h : mapRows (r :: rs) = some ts) :
    ∃ t ts2, from_row_ref r = some t ∧ mapRows rs = some ts2 ∧ ts = t :: ts2 := by
  revert h
  simp only [mapRows]
  cases hr : from_row_ref r with
  | none => intro h; cases h
  | some t =>
    cases hrs : mapRows rs with
    | none => intro h; cases h
    | some ts2 =>
      intro h
      exact ⟨t, ts2, rfl, rfl, (Option.some_inj.mp h).symm⟩

theorem mapRows_ne_nil (rs : List Row) (ts : List Transaction)
    (h : mapRows rs = some ts) (hne : rs ≠ []) : ts ≠ [] := by
  cases rs with
  | nil => exact absurd rfl hne
  | cons r rs =>
    obtain ⟨t, ts2, _, _, hts⟩ := mapRows_cons r rs ts h
    simp [hts]

theorem mapRows_mem (rs : List Row) (ts : List Transaction)
    (h : mapRows rs = some ts) (r : Row) (hr : r ∈ rs) (t : Transaction)
    (ht : from_row_ref r = some t) : t ∈ ts := by
  induction rs generalizing ts with
  | nil => cases hr
  | cons r0 rs ih =>
    obtain ⟨t0, ts2, h0, h2, hts⟩ := mapRows_cons r0 rs ts h
    subst hts
    rcases List.mem_cons.mp hr with heq | hmem
    · subst heq
      rw [ht] at h0
      exact List.mem_cons.mpr (Or.inl (Option.some_inj.mp h0))
    · exact List.mem_cons.mpr (Or.inr (ih ts2 h2 hmem))

theorem idConflict_false_iff (table : List Row) (r : Row) :
    idConflict table r = false ↔ ∀ r0 ∈ table, r0.head? ≠ r.head? := by
  simp [idConflict]

theorem idConflict_true_of_mem (table : List Row) (r0 r : Row)
    (hmem : r0 ∈ table) (h : r0.head? = r.head?) : idConflict table r = true := by
  simp only [idConflict, List.any_eq_true, decide_eq_true_eq]
  exact ⟨r0, hmem, h⟩

theorem runAdds_disjoint (ts : List Transaction) : ∀ table : List Row,
    (∀ t ∈ ts, ∀ r ∈ table, r.head? ≠ some (.text t.id)) →
    List.Pairwise (fun a b : Transaction => a.id ≠ b.id) ts →
    runAdds table ts = (table ++ ts.map Transaction.toRow, true) := by
  induction ts with
  | nil => intro table _ _; simp [runAdds]
  | cons t ts ih =>
    intro table hdisj hpw
    have hfresh : idConflict table t.toRow = false := by
      rw [idConflict_false_iff]
      intro r0 hr0
      have := hdisj t (List.mem_cons_self t ts) r0 hr0
      simpa [Transaction.toRow] using this
    have hadd : add_transaction table t = (table ++ [t.toRow], .ok t) := by
      rw [add_transaction_eq, hfresh]
      simp
    rw [List.pairwise_cons] at hpw
    have hdisj2 : ∀ u ∈ ts, ∀ r ∈ table ++ [t.toRow],
        r.head? ≠ some (.text u.id) := by
      intro u hu r hr
      rcases List.mem_append.mp hr with hr | hr
      · exact hdisj u (List.mem_cons_of_mem t hu) r hr
      · have : r = t.toRow := by simpa using hr
        subst this
        have hne := hpw.1 u hu
        simp only [Transaction.toRow, List.head?, ne_eq, Option.some_inj,
          SqlValue.text.injEq]
        exact hne
    have := ih (table ++ [t.toRow]) hdisj2 hpw.2
    simp only [runAdds, hadd, this, List.append_assoc, List.map_cons,
      List.singleton_append]

theorem runAdds_extends (ts : List Transaction) : ∀ table : List Row,
    ∃ added, (runAdds table ts).1 = table ++ added := by
  induction ts with
  | nil => intro table; exact ⟨[], by simp [runAdds]⟩
  | cons t ts ih =>
    intro table
    by_cases h : idConflict table t.toRow
    · exact ⟨[], by simp [runAdds, add_transaction_eq, h]⟩
    · obtain ⟨a2, ha2⟩ := ih (table ++ [t.toRow])
      refine ⟨[t.toRow] ++ a2, ?_⟩
      simp [runAdds, add_transaction_eq, h, ha2]

/-- A sample transaction with every optional field absent (the concrete
scenario of the spec's section 8). -/
def t1 : Transaction :=
  ⟨"t1", "2024-01-01T00:00:00Z", "deposit", "cash", none, none, "Alice",
   1000, none, none⟩

/-- A sample transaction with every optional field present. -/
def t2 : Transaction :=
  ⟨"t2", "2024-02-02T00:00:00Z", "transfer", "wire", some "w1", some "w2",
   "Bob", 250, some 5, some "note"⟩

/-- C1: Round trip — whenever add_transaction succeeds, the Transaction it
returns equals the inserted one field-for-field on all ten fields, absent
optional fields included (equality of the whole record). -/
theorem C1_round_trip (table : List Row) (t u : Transaction)
    (h : (add_transaction table t).2 = .ok u) : u = t := by
  rw [add_transaction_eq] at h
  by_cases hc : idConflict table t.toRow
  · simp [hc] at h
  · simp only [hc, if_false, Bool.false_eq_true, Outcome.ok.injEq] at h
    exact h.symm

/-- C1 witness: inserting the concrete transaction t1 into the empty table
succeeds and returns t1 itself. -/
theorem C1_round_trip_witness : t1 = t1 :=
  C1_round_trip [] t1 t1 (by decide)

/-- C2 counterexample: not every preparation / execution / row-mapping
failure comes back as a StorageError value — when statement preparation
fails, both operations panic instead of returning an error; and when the
query succeeds but a returned row fails to map (here: a row with no
columns), both operations panic as well. -/
theorem C2_counterexample :
    get_transactions_impl false (.ok []) = .panicked ∧
    add_transaction_impl false (.ok []) = .panicked ∧
    get_transactions_impl true (.ok [[]]) = .panicked ∧
    add_transaction_impl true (.ok [[]]) = .panicked :=
  ⟨rfl, rfl, rfl, rfl⟩

/-- C2 (amended): a failure of query execution is returned to the caller as
a StorageError value, for both operations; but a failure of statement
preparation, or of mapping a result row, aborts by panic instead of being
returned as an error value. -/
theorem C2_error_propagation (q : Except Unit (List Row)) :
    (∀ e : Unit, q = .error e →
      get_transactions_impl true q = .err .StorageError ∧
      add_transaction_impl true q = .err .StorageError) ∧
    get_transactions_impl false q = .panicked ∧
    add_transaction_impl false q = .panicked ∧
    (∀ rows, q = .ok rows → mapRows rows = none →
      get_transactions_impl true q = .panicked ∧
      add_transaction_impl true q = .panicked) := by
  refine ⟨?_, rfl, rfl, ?_⟩
  · rintro e rfl
    exact ⟨rfl, rfl⟩
  · rintro rows rfl hmap
    constructor <;> simp [get_transactions_impl, add_transaction_impl, hmap]

/-- C2 witness: a concrete query failure is returned as StorageError. -/
theorem C2_error_propagation_witness :
    get_transactions_impl true (.error ()) = .err .StorageError :=
  ((C2_error_propagation (.error ())).1 () rfl).1

/-- C3: when the insert statement executes without error and every returned
row maps to a Transaction, the result is the NotFound error exactly when the
result set has zero rows, and a Transaction value in every other case. -/
theorem C3_notfound_iff_empty (rows : List Row) (ts : List Transaction)
    (h : mapRows rows = some ts) :
    (add_transaction_impl true (.ok rows) = .err .NotFound ↔ rows = []) ∧
    (rows ≠ [] → ∃ t, add_transaction_impl true (.ok rows) = .ok t) := by
  have hok : rows ≠ [] → ∃ t, add_transaction_impl true (.ok rows) = .ok t := by
    intro hne
    have hts : ts ≠ [] := mapRows_ne_nil rows ts h hne
    obtain ⟨t, hlast⟩ : ∃ t, ts.getLast? = some t := by
      cases hl : ts.getLast? with
      | none => exact absurd (List.getLast?_eq_none_iff.mp hl) hts
      | some t => exact ⟨t, rfl⟩
    exact ⟨t, by simp [add_transaction_impl, h, hlast]⟩
  refine ⟨⟨?_, ?_⟩, hok⟩
  · intro hnf
    by_contra hne
    obtain ⟨t, hokt⟩ := hok hne
    rw [hokt] at hnf
    cases hnf
  · rintro rfl
    have : ts = [] := mapRows_nil_of_nil ts h
    subst this
    simp [add_transaction_impl, mapRows, List.getLast?]

/-- C3 witness: a one-row result set yields a Transaction value, and the
NotFound error indeed characterizes the empty result set there. -/
theorem C3_notfound_iff_empty_witness :
    ∃ t, add_transaction_impl true (.ok [t1.toRow]) = .ok t :=
  (C3_notfound_iff_empty [t1.toRow] [t1] (by decide)).2 (by decide)

/-- C6: listing against an empty stored collection returns the empty
sequence, leaves the table empty, and raises no error (and no panic) on the
query / row-mapping path. -/
theorem C6_empty_state :
    get_transactions ([] : List Row) = ([], .ok ([] : List Transaction)) := rfl

/-- C9: when the result set of the insert's RETURNING clause maps to more
than one Transaction, add_transaction returns the one mapped from the last
row, discarding all earlier rows. -/
theorem C9_pop_takes_last_row (rows : List Row) (ts : List Transaction)
    (t : Transaction) (h : mapRows rows = some (ts ++ [t])) :
    add_transaction_impl true (.ok rows) = .ok t := by
  have hlast : (ts ++ [t]).getLast? = some t := by
    rw [List.getLast?_append_cons]
    rfl
  simp [add_transaction_impl, h, hlast]

/-- C9 witness: a two-row result set (mapping to t1 then t2) yields t2, the
Transaction of the last row. -/
theorem C9_pop_takes_last_row_witness :
    add_transaction_impl true (.ok [t1.toRow, t2.toRow]) = .ok t2 :=
  C9_pop_takes_last_row [t1.toRow, t2.toRow] [t1] t2 (by decide)

/-- C4: starting from the empty table, N add_transaction calls with
pairwise-distinct ids all succeed, and get_transactions then returns a
sequence that is, as a multiset, exactly those N records. -/
theorem C4_list_completeness (ts : List Transaction)
    (h : List.Pairwise (fun a b : Transaction => a.id ≠ b.id) ts) :
    (runAdds [] ts).2 = true ∧
    ∃ l, (get_transactions (runAdds [] ts).1).2 = .ok l ∧ l.Perm ts := by
  have hrun := runAdds_disjoint ts [] (by intro t _ r hr; cases hr) h
  rw [hrun]
  refine ⟨rfl, ts, ?_, List.Perm.refl ts⟩
  simp [get_transactions, runSelectAll, get_transactions_impl,
    mapRows_map_toRow]

/-- C4 witness: the concrete sequence t1, t2 of distinct ids is inserted in
full and listed in full. -/
theorem C4_list_completeness_witness :
    (runAdds [] [t1, t2]).2 = true ∧
    ∃ l, (get_transactions (runAdds [] [t1, t2]).1).2 = .ok l ∧
      l.Perm [t1, t2] :=
  C4_list_completeness [t1, t2] (by decide)

/-- C5: inserting a Transaction whose id duplicates a stored row fails with
StorageError, the table is unchanged, the stored record is still present,
and listing still returns it. -/
theorem C5_duplicate_insert (table : List Row) (R t : Transaction)
    (hmem : R.toRow ∈ table) (hid : t.id = R.id) :
    add_transaction table t = (table, .err .StorageError) ∧
    R.toRow ∈ (add_transaction table t).1 ∧
    get_transactions (add_transaction table t).1 = get_transactions table ∧
    (∀ l, (get_transactions table).2 = .ok l → R ∈ l) := by
  have hconf : idConflict table t.toRow = true := by
    apply idConflict_true_of_mem table R.toRow t.toRow hmem
    simp [Transaction.toRow, hid]
  have hadd : add_transaction table t = (table, .err .StorageError) := by
    rw [add_transaction_eq]
    simp [hconf]
  refine ⟨hadd, ?_, ?_, ?_⟩
  · rw [hadd]
    exact hmem
  · rw [hadd]
  · intro l hl
    have hmr : mapRows table = some l := by
      revert hl
      simp only [get_transactions, runSelectAll, get_transactions_impl,
        if_true]
      cases hm : mapRows table with
      | none => intro hl; cases hl
      | some l0 =>
        intro hl
        rw [Option.some_inj]
        exact (Outcome.ok.injEq l0 l).mp hl
    exact mapRows_mem table l hmr R.toRow hmem R (from_row_ref_toRow R)

/-- C5 witness: re-inserting t1 over a table holding t1's row fails with
StorageError and leaves the row listed. -/
theorem C5_duplicate_insert_witness :
    add_transaction [t1.toRow] t1 = ([t1.toRow], .err .StorageError) :=
  (C5_duplicate_insert [t1.toRow] t1 t1 (by decide) rfl).1

/-- C7: a Transaction with all four optional fields absent inserts
successfully (no id conflict) and is returned with those fields absent; the
serialized JSON of any Transaction carries all ten field names, and the four
absent optional fields render as explicit nulls (not empty strings, not
zero). -/
theorem C7_optional_nullability (table : List Row) (t : Transaction)
    (hwf : t.wallet_from = none) (hwt : t.wallet_to = none)
    (hfee : t.fee = none) (hdesc : t.description = none)
    (hfresh : idConflict table t.toRow = false) :
    (add_transaction table t).2 = .ok t ∧
    (∀ s : Transaction, jsonKeys s.toJson = fieldNames) ∧
    lookupField t.toJson "wallet_from" = some .null ∧
    lookupField t.toJson "wallet_to" = some .null ∧
    lookupField t.toJson "fee" = some .null ∧
    lookupField t.toJson "description" = some .null := by
  refine ⟨?_, fun s => rfl, ?_, ?_, ?_, ?_⟩
  · rw [add_transaction_eq]
    simp [hfresh]
  all_goals
    simp [Transaction.toJson, lookupField, List.lookup, hwf, hwt, hfee,
      hdesc, jsonOfOptStr, jsonOfOptInt]

/-- C7 witness: the concrete all-optionals-absent transaction t1 inserts
into the empty table and serializes with explicit nulls. -/
theorem C7_optional_nullability_witness :
    (add_transaction [] t1).2 = .ok t1 :=
  (C7_optional_nullability [] t1 rfl rfl rfl rfl (by decide)).1

/-- C8: listing never changes the stored collection, and any sequence of
add_transaction calls only ever appends rows — every previously stored row
survives, unmodified and in place, as a prefix of the new table. -/
theorem C8_immutability (table : List Row) (t : Transaction)
    (ts : List Transaction) :
    (get_transactions table).1 = table ∧
    (∃ added, (add_transaction table t).1 = table ++ added) ∧
    (∃ added, (runAdds table ts).1 = table ++ added) := by
  refine ⟨rfl, ?_, runAdds_extends ts table⟩
  rw [add_transaction_eq]
  by_cases h : idConflict table t.toRow
  · exact ⟨[], by simp [h]⟩
  · exact ⟨[t.toRow], by simp [h]⟩

/-- C10: a JSON object carrying the six required fields with the right
types, none of the four optional field names, and otherwise arbitrary
unknown fields deserializes successfully into the corresponding Transaction,
the unknown fields being ignored rather than rejected. -/
theorem C10_unknown_fields_ignored (fs : List (String × Json))
    (i dt ty sub nm : String) (am : Int)
    (h1 : fs.lookup "id" = some (.str i))
    (h2 : fs.lookup "datetime" = some (.str dt))
    (h3 : fs.lookup "trx_type" = some (.str ty))
    (h4 : fs.lookup "trx_subtype" = some (.str sub))
    (h5 : fs.lookup "name" = some (.str nm))
    (h6 : fs.lookup "amount" = some (.num am))
    (h7 : fs.lookup "wallet_from" = none)
    (h8 : fs.lookup "wallet_to" = none)
    (h9 : fs.lookup "fee" = none)
    (h10 : fs.lookup "description" = none) :
    Transaction.fromJson (.obj fs) =
      some ⟨i, dt, ty, sub, none, none, nm, am, none, none⟩ := by
  simp [Transaction.fromJson, h1, h2, h3, h4, h5, h6, h7, h8, h9, h10,
    getStr, getInt, getOptStr, getOptInt]

/-- C10 witness: a concrete body with the six required fields plus two
unknown fields deserializes to t1, the unknown fields ignored. -/
theorem C10_unknown_fields_ignored_witness :
    Transaction.fromJson (.obj
      [("id", .str "t1"), ("datetime", .str "2024-01-01T00:00:00Z"),
       ("trx_type", .str "deposit"), ("trx_subtype", .str "cash"),
       ("name", .str "Alice"), ("amount", .num 1000),
       ("bogus", .bool true), ("more", .arr [])]) = some t1 :=
  C10_unknown_fields_ignored _ "t1" "2024-01-01T00:00:00Z" "deposit" "cash"
    "Alice" 1000 rfl rfl rfl rfl rfl rfl rfl rfl rfl rfl

end KantonQ
